import Mathlib

/-!
Verification development for the AriaComponents repository: a shallow
embedding of the focus/keyboard-interaction logic of MenuBar, MenuItem,
MenuButton, Dialog and Popup, with theorems about roving tabindex
management, directional key-to-focus-target resolution, nested popup
open/close coordination and type-ahead character search.

DOM elements are modelled by an `Elem` record carrying the fields the
code reads (`nodeName`, text content); event-handler side effects
(focus moves, preventDefault/stopPropagation, popup state updates) are
modelled as explicit action traces, and a small interpreter applies a
trace to a runtime state.
-/

namespace AriaComponents

/-- A DOM element, identified by `eid`, with the fields the embedded code
reads: its `nodeName` and its text content (used by type-ahead search). -/
structure Elem where
  eid : Nat
  nodeName : String
  textContent : String
deriving DecidableEq, Repr

/-- A list child (an `li` element) together with its first element child,
when it has one.  `MenuItem.init` and `MenuBar.init` read exactly these
two fields of each child. -/
structure ListItem where
  item : Elem
  firstElementChild : Option Elem
deriving DecidableEq, Repr

/- Key code lookup table from `src/lib/keyCodes` (standard DOM key codes). -/
namespace keyCodes

def TAB : Nat := 9

def RETURN : Nat := 13

def ESC : Nat := 27

def SPACE : Nat := 32

def END : Nat := 35

def HOME : Nat := 36

def LEFT : Nat := 37

def UP : Nat := 38

def RIGHT : Nat := 39

def DOWN : Nat := 40

end keyCodes

/-- The link collected from a list child: its first element child when that
child exists and is an anchor (`'A' === itemLink.nodeName`), otherwise none.
This is the body of the `reduce` in `MenuItem.init` and `MenuBar.init`. -/
def linkOf (it : ListItem) : Option Elem :=
  match it.firstElementChild with
  | some l => if l.nodeName = "A" then some l else none
  | none => none

/-- The collected menu links: the `reduce` in `MenuItem.init` (and the
identical one in `MenuBar.init`) which keeps each child's first element
child when it is an anchor. -/
def collectLinks (children : List ListItem) : List Elem :=
  children.foldl
    (fun acc it =>
      match it.firstElementChild with
      | some l => if l.nodeName = "A" then acc ++ [l] else acc
      | none => acc)
    []

/-- The `aria-setsize` / `aria-posinset` attributes `MenuItem.init` writes:
each collected link receives `aria-setsize` equal to the number of collected
links and `aria-posinset` equal to its index plus one.  Entries are
`(link, setsize, posinset)`. -/
def MenuItem.initAttrs (children : List ListItem) : List (Elem × Nat × Nat) :=
  let menuItems := collectLinks children
  menuItems.enum.map (fun p => (p.2, menuItems.length, p.1 + 1))

/-- The `aria-setsize` / `aria-posinset` attributes `MenuBar.init` writes:
each menubar child (not link) receives `aria-setsize` equal to
`menuLength` (the number of collected links) and `aria-posinset` equal to
its index among all children plus one.  Entries are
`(child, setsize, posinset)`. -/
def MenuBar.initAttrs (children : List ListItem) : List (Elem × Nat × Nat) :=
  let menuLength := (collectLinks children).length
  children.enum.map (fun p => (p.2.item, menuLength, p.1 + 1))

theorem collectLinks_eq_filterMap (children : List ListItem) :
    collectLinks children = children.filterMap linkOf := by
  suffices h : ∀ (l : List ListItem) (acc : List Elem),
      l.foldl
        (fun acc it =>
          match it.firstElementChild with
          | some lk => if lk.nodeName = "A" then acc ++ [lk] else acc
          | none => acc)
        acc = acc ++ l.filterMap linkOf by
    simpa using h children []
  intro l
  induction l with
  | nil => intro acc; simp
  | cons hd tl ih =>
    intro acc
    simp only [List.foldl_cons, List.filterMap_cons]
    cases hfc : hd.firstElementChild with
    | none => simp [linkOf, hfc, ih]
    | some lk =>
      by_cases ha : lk.nodeName = "A"
      · simp [linkOf, hfc, ha, ih]
      · simp [linkOf, hfc, ha, ih]

/-- A Popup attached to a menubar item: its identity `pid`, its current
`state.expanded`, and its `firstChild` (the first interactive child of the
popup's target, focused when the popup is opened from the menubar). -/
structure Popup where
  pid : Nat
  expanded : Bool
  firstChild : Elem
deriving DecidableEq, Repr

/-- One side effect of an event handler: the handlers are modelled as
returning the list of effects they perform, in order. -/
inductive Act where
  | stopPropagation : Act
  | preventDefault : Act
  | popupSetExpanded : Nat → Bool → Act
  | setMenubarItem : Elem → Act
  | focusElem : Elem → Act
  | showPopup : Act
deriving DecidableEq, Repr

/-- Runtime state an action trace acts on: the selected menubar item, the
expanded flag of each popup (by `pid`), the focused element, and whether the
component's own popup was shown. -/
structure MBRun where
  menubarItem : Elem
  popupExp : Nat → Bool
  focused : Option Elem
  popupShown : Bool

/-- Interpret one action.  `setMenubarItem` models `this.setState({ menubarItem })`,
which runs `stateWasUpdated` and therefore also focuses the new item. -/
def applyAct (r : MBRun) : Act → MBRun
  | Act.stopPropagation => r
  | Act.preventDefault => r
  | Act.popupSetExpanded pid b =>
      { r with popupExp := fun k => if k = pid then b else r.popupExp k }
  | Act.setMenubarItem e => { r with menubarItem := e, focused := some e }
  | Act.focusElem e => { r with focused := some e }
  | Act.showPopup => { r with popupShown := true }

/-- Interpret a trace of actions, left to right. -/
def applyActs (r : MBRun) (l : List Act) : MBRun :=
  l.foldl applyAct r

/-- Modelled from the spec: `src/lib/rovingTabIndex` is not in the sources.
The spec describes roving tabindex management: across the managed items,
exactly the active item is kept in the tab order and every other managed
item is removed from it.  `inTab` is the tab-order membership of elements
before the call. -/
def rovingTabIndex (items : List Elem) (active : Elem) (inTab : Elem → Bool) :
    Elem → Bool :=
  fun e => if e ∈ items then decide (e = active) else inTab e

/-- The MenuBar runtime state relevant to the roving tabindex invariant:
the collected menubar item links, the attached popups, `state.menubarItem`,
`state.popup`, the tab-order membership map and the focused element. -/
structure MenuBarSt where
  menuBarItems : List Elem
  popupOf : Elem → Option Popup
  menubarItem : Elem
  statePopup : Option Popup
  inTab : Elem → Bool
  focused : Option Elem

/-- The tail of `MenuBar.init`: `const [menubarItem] = this.menuBarItems`,
initial state `{ menubarItem, popup: getPopupFromMenubarItem(menubarItem) }`,
and `rovingTabIndex(this.menuBarItems, menubarItem)`.  On an empty item
list the destructured `menubarItem` is undefined and
`getPopupFromMenubarItem` faults reading `.popup` of undefined, modelled as
`none`.  `init` itself does not focus anything. -/
def MenuBar.initSt (items : List Elem) (popupOf : Elem → Option Popup)
    (inTab0 : Elem → Bool) : Option MenuBarSt :=
  match items with
  | [] => none
  | first :: rest =>
      some
        { menuBarItems := first :: rest
          popupOf := popupOf
          menubarItem := first
          statePopup := popupOf first
          inTab := rovingTabIndex (first :: rest) first inTab0
          focused := none }

/-- `MenuBar.stateWasUpdated`: recompute `state.popup` from the new
`menubarItem`, re-run `rovingTabIndex`, and focus the new item. -/
def MenuBar.stateWasUpdated (s : MenuBarSt) (menubarItem : Elem) : MenuBarSt :=
  { s with
    menubarItem := menubarItem
    statePopup := s.popupOf menubarItem
    inTab := rovingTabIndex s.menuBarItems menubarItem s.inTab
    focused := some menubarItem }

/-- Modelled from the spec: the `AriaComponent` base class is not in the
sources.  The spec describes state as a plain key-value record; `setState`
merges the update into the state and runs the component's state-change
hook, which for MenuBar is `stateWasUpdated`. -/
def MenuBar.setStateMenubarItem (s : MenuBarSt) (e : Elem) : MenuBarSt :=
  MenuBar.stateWasUpdated s e

/-- Modelled from the spec: `src/lib/nextPrevious` is not in the sources.
The spec describes directional key-to-focus-target resolution over the
menubar items: LEFT resolves to the item before the current one and RIGHT
to the item after it, with no wrap-around; when no such item exists the
resolution is empty (the caller tests `if (nextItem)`). -/
def nextPreviousFromLeftRight (keyCode : Nat) (item : Elem) (items : List Elem) :
    Option Elem :=
  match items.findIdx? (fun e => e = item) with
  | none => none
  | some i =>
      if keyCode = keyCodes.RIGHT then items.get? (i + 1)
      else if keyCode = keyCodes.LEFT then
        if i = 0 then none else items.get? (i - 1)
      else none

/-- Modelled from the spec: the type-ahead helper of the `AriaComponent`
base class is not in the sources.  The character a key press contributes to
the collected search string: the key code's character, lowercased. -/
def keyChar (keyCode : Nat) : Char :=
  (Char.ofNat keyCode).toLower

/-- Whether the character list `s` begins with the character list `pre`. -/
def beginsWithChars : List Char → List Char → Bool
  | _, [] => true
  | [], _ :: _ => false
  | c :: cs, d :: ds => c = d && beginsWithChars cs ds

/-- Whether the text `s`, lowercased, begins with the collected search
string `pre`. -/
def textBeginsWith (s pre : String) : Bool :=
  beginsWithChars (s.data.map Char.toLower) pre.data

/-- Modelled from the spec: the type-ahead helper of the `AriaComponent`
base class is not in the sources.  The spec describes type-ahead character
search: the pressed character is appended to a collected search string and
the first item whose text matches the collected string is returned (or none
when no item matches), together with the new search string. -/
def typeAhead (keyCode : Nat) (searchString : String) (items : List Elem) :
    Option Elem × String :=
  let s := searchString.push (keyChar keyCode)
  (items.find? (fun e => textBeginsWith e.textContent s), s)

/-- The inputs `MenuBar.handleMenuBarKeydown` reads: the collected menubar
items, `this.lastIndex`, `state.menubarItem`, `state.popup` (a Popup or
false), and the collected type-ahead search string. -/
structure MenuBarKD where
  menuBarItems : List Elem
  lastIndex : Nat
  menubarItem : Elem
  popup : Option Popup
  searchString : String

/-- `MenuBar.handleMenuBarKeydown`: the switch on the event's key code.
Returns the trace of effects performed and the new type-ahead search
string.  LEFT/RIGHT resolve a sibling item and, when one exists, stop the
event, close the current popup if there is one, and select the resolved
item; SPACE/RETURN/DOWN open the current popup (when there is one) and
focus its first child; HOME/END select the first/`lastIndex`-th item; any
other key goes through type-ahead. -/
def MenuBar.handleMenuBarKeydown (kd : MenuBarKD) (keyCode : Nat) :
    List Act × String :=
  if keyCode = keyCodes.LEFT ∨ keyCode = keyCodes.RIGHT then
    match nextPreviousFromLeftRight keyCode kd.menubarItem kd.menuBarItems with
    | some nextItem =>
        ([Act.stopPropagation, Act.preventDefault] ++
          (match kd.popup with
           | some p => [Act.popupSetExpanded p.pid false]
           | none => []) ++
          [Act.setMenubarItem nextItem], kd.searchString)
    | none => ([], kd.searchString)
  else if keyCode = keyCodes.SPACE ∨ keyCode = keyCodes.RETURN ∨
      keyCode = keyCodes.DOWN then
    match kd.popup with
    | some p =>
        ([Act.stopPropagation, Act.preventDefault] ++
          (if p.expanded then [] else [Act.popupSetExpanded p.pid true]) ++
          [Act.focusElem p.firstChild], kd.searchString)
    | none => ([], kd.searchString)
  else if keyCode = keyCodes.HOME then
    (match kd.menuBarItems.head? with
     | some firstItem => [Act.preventDefault, Act.setMenubarItem firstItem]
     | none => [Act.preventDefault], kd.searchString)
  else if keyCode = keyCodes.END then
    (match kd.menuBarItems.get? kd.lastIndex with
     | some lastItem => [Act.preventDefault, Act.setMenubarItem lastItem]
     | none => [Act.preventDefault], kd.searchString)
  else
    match typeAhead keyCode kd.searchString kd.menuBarItems with
    | (some itemToFocus, s) => ([Act.setMenubarItem itemToFocus], s)
    | (none, s) => ([], s)

/-- JavaScript `Array.prototype.indexOf`: the index of the first occurrence,
or `-1` when the element does not occur. -/
def jsIndexOf (l : List Elem) (a : Elem) : Int :=
  match l.findIdx? (fun e => e = a) with
  | some i => (i : Int)
  | none => -1

/-- The `MenuItem` instance fields `handleListKeydown` reads: the collected
menu item links and the recorded `previousSibling` (set on sublists by
`MenuItem.init` and `MenuBar.init`, absent on top-level lists). -/
structure MenuItemM where
  menuItems : List Elem
  previousSibling : Option Elem

/-- The DOM surroundings `MenuItem.handleListKeydown` consults:
whether `this.list.contains(document.activeElement)` and which element is
active; `nextElementIsUl` (the next element sibling when it is a UL); the
`menuItem` instance attached to a UL (its `firstItem`, itself optional
since an empty sublist has none); and the `popup` instance attached to an
element (checked by `instanceOf(element, Popup)`). -/
structure MenuItemEnv where
  containsActive : Bool
  activeElement : Elem
  nextUl : Elem → Option Elem
  subMenuFirst : Elem → Option (Option Elem)
  popupAttached : Elem → Option Popup

/-- `MenuItem.handleListKeydown`.  `none` marks a JavaScript fault
(a property access or call on undefined).  UP/DOWN move within the
collected items with wrap-around; RIGHT drills into a sibling UL managed
by a MenuItem; LEFT moves to the recorded previous sibling, first closing
its attached popup when that popup is expanded. -/
def MenuItem.handleListKeydown (m : MenuItemM) (env : MenuItemEnv)
    (keyCode : Nat) : Option (List Act) :=
  let activeDescendant : Option Elem :=
    if env.containsActive then some env.activeElement else m.menuItems.head?
  let menuLastIndex : Int := (m.menuItems.length : Int) - 1
  let activeIndex : Int :=
    match activeDescendant with
    | some a => jsIndexOf m.menuItems a
    | none => -1
  if keyCode = keyCodes.UP ∨ keyCode = keyCodes.DOWN then
    let nextIndex0 : Int :=
      if keyCode = keyCodes.UP then activeIndex - 1 else activeIndex + 1
    let nextIndex1 : Int :=
      if keyCode = keyCodes.UP ∧ nextIndex0 < 0 then menuLastIndex else nextIndex0
    let nextIndex : Int :=
      if keyCode = keyCodes.DOWN ∧ menuLastIndex < nextIndex1 then 0 else nextIndex1
    match m.menuItems.get? nextIndex.toNat with
    | some tgt => some [Act.stopPropagation, Act.preventDefault, Act.focusElem tgt]
    | none => none
  else if keyCode = keyCodes.RIGHT then
    match activeDescendant with
    | none => none
    | some a =>
        match env.nextUl a with
        | some ul =>
            match env.subMenuFirst ul with
            | some (some f) =>
                some [Act.stopPropagation, Act.preventDefault, Act.focusElem f]
            | some none => none
            | none => some []
        | none => some []
  else if keyCode = keyCodes.LEFT then
    match m.previousSibling with
    | none => some []
    | some prev =>
        some ([Act.stopPropagation, Act.preventDefault] ++
          (match env.popupAttached prev with
           | some p =>
               [Act.stopPropagation, Act.preventDefault] ++
                 (if p.expanded then [Act.popupSetExpanded p.pid false] else [])
           | none => []) ++
          [Act.focusElem prev])
  else
    some []

/-- The `Menu` instance a MenuButton presents: its first and last collected
item links (absent when the menu has no links).  Modelled from the spec:
`src/Menu` is not in the sources; the spec describes Menu as the
roving-tabindex list composed by MenuBar and MenuButton, and
`MenuButton.handleControllerKeydown` reads exactly `firstItem` and
`lastItem` of it. -/
structure MenuInst where
  firstItem : Option Elem
  lastItem : Option Elem
deriving DecidableEq, Repr

/-- The value of `this.menu` after `MenuButton.init`: either a constructed
`Menu` instance, or the raw constructor option left in place (null or a
non-UL element). -/
inductive MenuField where
  | inst : MenuInst → MenuField
  | raw : Option Elem → MenuField
deriving DecidableEq, Repr

/-- The menu-assignment step of `MenuButton.init`: wrap `this.menu` in a
`Menu` when the option was passed and is a UL, else fall back to the target
when it is a UL, else leave the field as passed.  `mk` constructs the
`Menu` instance for a UL element. -/
def MenuButton.initMenu (menuOpt : Option Elem) (target : Elem)
    (mk : Elem → MenuInst) : MenuField :=
  match menuOpt with
  | some m =>
      if m.nodeName = "UL" then MenuField.inst (mk m)
      else if target.nodeName = "UL" then MenuField.inst (mk target)
      else MenuField.raw (some m)
  | none =>
      if target.nodeName = "UL" then MenuField.inst (mk target)
      else MenuField.raw none

/-- `MenuButton.handleControllerKeydown`: RETURN/SPACE/DOWN prevent the
default action, show the popup and focus `this.menu.firstItem` when it
exists; UP prevents the default action, shows the popup and focuses
`this.menu.lastItem` when it exists; other keys do nothing.  `none` marks
the fault of reading `firstItem`/`lastItem` off a null `this.menu`; a
non-Menu element left in `this.menu` yields undefined for those reads, so
no focus move happens. -/
def MenuButton.handleControllerKeydown (menu : MenuField) (keyCode : Nat) :
    Option (List Act) :=
  if keyCode = keyCodes.RETURN ∨ keyCode = keyCodes.SPACE ∨
      keyCode = keyCodes.DOWN then
    match menu with
    | MenuField.raw none => none
    | MenuField.raw (some _) => some [Act.preventDefault, Act.showPopup]
    | MenuField.inst m =>
        some ([Act.preventDefault, Act.showPopup] ++
          (match m.firstItem with
           | some f => [Act.focusElem f]
           | none => []))
  else if keyCode = keyCodes.UP then
    match menu with
    | MenuField.raw none => none
    | MenuField.raw (some _) => some [Act.preventDefault, Act.showPopup]
    | MenuField.inst m =>
        some ([Act.preventDefault, Act.showPopup] ++
          (match m.lastItem with
           | some l => [Act.focusElem l]
           | none => []))
  else
    some []

/-- Modelled from the spec: `src/Dialog/index.js` is not in the sources
(only its test is).  The Dialog state the spec describes: the dialog's
focusable elements in document order, the close button first, and the
`visible` flag. -/
structure DialogSt where
  focusables : List Elem
  visible : Bool

/-- Modelled from the spec: `src/Dialog/index.js` is not in the sources.
The spec describes a modal focus trap with an inert background and
Tab/Shift+Tab wrap-around: while the dialog is visible the tab order is
exactly the dialog's focusable elements; Tab on the last focusable wraps
to the first (the close button), Shift+Tab on the first wraps to the last,
and otherwise Tab/Shift+Tab move to the adjacent dialog focusable.  The
result is the element receiving focus, or `none` when the dialog is hidden
or the element is not one of its focusables (no trapping applies). -/
def Dialog.tabTarget (d : DialogSt) (cur : Elem) (shiftKey : Bool) :
    Option Elem :=
  if d.visible = false then none
  else
    match d.focusables.findIdx? (fun e => e = cur) with
    | none => none
    | some i =>
        let n := d.focusables.length
        if shiftKey then d.focusables.get? ((i + n - 1) % n)
        else d.focusables.get? ((i + 1) % n)

/-- Modelled from the spec: `src/Dialog/index.js` is not in the sources.
While the dialog is visible, an Escape keydown with focus inside the
dialog sets `visible` to false; otherwise the state is unchanged. -/
def Dialog.handleEscape (d : DialogSt) (focusInDialog : Bool) : DialogSt :=
  if d.visible ∧ focusInDialog then { d with visible := false } else d

/-- Modelled from the spec: `src/Dialog/index.js` is not in the sources.
A click on the overlay outside the dialog closes a visible dialog. -/
def Dialog.handleOverlayClick (d : DialogSt) : DialogSt :=
  if d.visible then { d with visible := false } else d

/-- Modelled from the spec: `src/Popup` is not in the sources.  The Popup
state the spec describes: the `expanded` flag. -/
structure PopupSt where
  expanded : Bool
deriving DecidableEq, Repr

/-- Modelled from the spec: `src/Popup` is not in the sources; the spec
says a popup closes on Escape. -/
def Popup.handleEscape (p : PopupSt) : PopupSt :=
  { p with expanded := false }

/-- Modelled from the spec: `src/Popup` is not in the sources; the spec
says a popup closes on a click outside of it. -/
def Popup.handleOutsideClick (p : PopupSt) : PopupSt :=
  if p.expanded then { p with expanded := false } else p

/- Sample elements shared by the concrete witness evaluations. -/

def anchorA : Elem := { eid := 1, nodeName := "A", textContent := "alpha" }

def anchorB : Elem := { eid := 2, nodeName := "A", textContent := "beta" }

def anchorC : Elem := { eid := 3, nodeName := "A", textContent := "gamma" }

def ulElem : Elem := { eid := 10, nodeName := "UL", textContent := "" }

def divElem : Elem := { eid := 11, nodeName := "DIV", textContent := "" }

theorem length_filterMap_eq_length_iff {α β : Type} (f : α → Option β)
    (l : List α) :
    (l.filterMap f).length = l.length ↔ ∀ a ∈ l, (f a).isSome = true := by
  induction l with
  | nil => simp
  | cons a l ih =>
    cases hfa : f a with
    | none =>
      simp only [List.filterMap_cons, hfa, List.length_cons]
      constructor
      · intro h
        exfalso
        have hle := List.length_filterMap_le f l
        omega
      · intro h
        exact absurd (h a (List.mem_cons_self a l)) (by simp [hfa])
    | some b =>
      simp only [List.filterMap_cons, hfa, List.length_cons, List.mem_cons]
      constructor
      · intro h x hx
        rcases hx with hx | hx
        · subst hx; simp [hfa]
        · exact (ih.mp (by omega)) x hx
      · intro h
        have : (l.filterMap f).length = l.length :=
          ih.mpr (fun x hx => h x (Or.inr hx))
        omega

/-- Claim C1: after `MenuBar.init` and after every state update through
`stateWasUpdated`, exactly the current `state.menubarItem` among the
menubar item links is in the tab order and every other menubar item link
is removed from it; every operation that changes `state.menubarItem`
(every `setState`, which runs `stateWasUpdated`) re-establishes the
property and moves focus to the new item. -/
theorem menuBar_roving_tabindex_invariant
    (items : List Elem) (popupOf : Elem → Option Popup) (inTab0 : Elem → Bool) :
    (∀ s, MenuBar.initSt items popupOf inTab0 = some s →
        s.menubarItem ∈ s.menuBarItems ∧
        ∀ e ∈ s.menuBarItems, s.inTab e = decide (e = s.menubarItem)) ∧
    (∀ (s : MenuBarSt) (x : Elem), x ∈ s.menuBarItems →
        (MenuBar.setStateMenubarItem s x).menubarItem = x ∧
        (MenuBar.setStateMenubarItem s x).inTab x = true ∧
        (∀ e ∈ s.menuBarItems,
          (MenuBar.setStateMenubarItem s x).inTab e = decide (e = x)) ∧
        (MenuBar.setStateMenubarItem s x).focused = some x) := by
  constructor
  · intro s hs
    cases items with
    | nil => simp [MenuBar.initSt] at hs
    | cons first rest =>
      have hs2 :
          s = { menuBarItems := first :: rest
                popupOf := popupOf
                menubarItem := first
                statePopup := popupOf first
                inTab := rovingTabIndex (first :: rest) first inTab0
                focused := none } := by
        simpa [MenuBar.initSt] using hs.symm
      subst hs2
      refine ⟨List.mem_cons_self _ _, ?_⟩
      intro e he
      simp [rovingTabIndex, he]
  · intro s x hx
    refine ⟨rfl, ?_, ?_, rfl⟩
    · simp [MenuBar.setStateMenubarItem, MenuBar.stateWasUpdated, rovingTabIndex,
        hx]
    · intro e he
      simp [MenuBar.setStateMenubarItem, MenuBar.stateWasUpdated, rovingTabIndex,
        he]

theorem menuBar_roving_tabindex_invariant_witness :
    (MenuBar.setStateMenubarItem
      { menuBarItems := [anchorA, anchorB]
        popupOf := fun _ => none
        menubarItem := anchorA
        statePopup := none
        inTab := fun _ => false
        focused := none } anchorB).inTab anchorA = false := by
  have h :=
    (menuBar_roving_tabindex_invariant [anchorA, anchorB] (fun _ => none)
        (fun _ => false)).2
      { menuBarItems := [anchorA, anchorB]
        popupOf := fun _ => none
        menubarItem := anchorA
        statePopup := none
        inTab := fun _ => false
        focused := none } anchorB (by decide)
  have h2 := h.2.2.1 anchorA (by decide)
  rw [h2]
  decide

/-- Claim C10: after `MenuItem.init`, every collected link's
`aria-posinset` is between 1 and its `aria-setsize` (the number of
collected links); after `MenuBar.init`, where `aria-posinset` is the
child's one-based index among all menubar children but `aria-setsize`
counts only the children whose first element child is an anchor, the bound
`aria-posinset ≤ aria-setsize` holds for every child exactly when every
menubar child has an anchor as its first element child. -/
theorem aria_setsize_posinset_consistency (children : List ListItem) :
    (∀ x ∈ MenuItem.initAttrs children, 1 ≤ x.2.2 ∧ x.2.2 ≤ x.2.1) ∧
    ((∀ x ∈ MenuBar.initAttrs children, x.2.2 ≤ x.2.1) ↔
      ∀ it ∈ children, (linkOf it).isSome = true) := by
  constructor
  · intro x hx
    simp only [MenuItem.initAttrs, List.mem_map] at hx
    obtain ⟨p, hp, hpx⟩ := hx
    have hlt : p.1 < (collectLinks children).length :=
      (List.getElem?_eq_some.mp (List.mem_enum_iff_getElem?.mp hp)).1
    subst hpx
    simpa using hlt
  · have hflen :
        (collectLinks children).length = (children.filterMap linkOf).length := by
      rw [collectLinks_eq_filterMap]
    constructor
    · intro h
      rw [← length_filterMap_eq_length_iff linkOf children, ← hflen]
      have hle : (collectLinks children).length ≤ children.length := by
        rw [hflen]
        exact List.length_filterMap_le linkOf children
      rcases hn : children.length with _ | n
      · omega
      · have hlast : n < children.length := by omega
        have hmem : (n, children[n]) ∈ children.enum := by
          rw [List.mem_enum_iff_getElem?]
          exact List.getElem?_eq_some.mpr ⟨hlast, rfl⟩
        have hx :
            ((children[n]).item, (collectLinks children).length, n + 1) ∈
              MenuBar.initAttrs children := by
          simp only [MenuBar.initAttrs, List.mem_map]
          exact ⟨(n, children[n]), hmem, rfl⟩
        have := h _ hx
        simp only at this
        omega
    · intro h x hx
      have heq : (children.filterMap linkOf).length = children.length :=
        (length_filterMap_eq_length_iff linkOf children).mpr h
      simp only [MenuBar.initAttrs, List.mem_map] at hx
      obtain ⟨p, hp, hpx⟩ := hx
      have hlt : p.1 < children.length :=
        (List.getElem?_eq_some.mp (List.mem_enum_iff_getElem?.mp hp)).1
      subst hpx
      simp only
      omega

theorem aria_setsize_posinset_consistency_witness :
    (1 ≤ 1 ∧ 1 ≤ 2) ∧ ¬ ∀ it ∈ [ListItem.mk ulElem (some anchorA),
        ListItem.mk ulElem none], (linkOf it).isSome = true := by
  constructor
  · exact
      (aria_setsize_posinset_consistency
          [ListItem.mk ulElem (some anchorA), ListItem.mk ulElem (some anchorB)]).1
        (anchorA, 2, 1) (by decide)
  · intro hcontra
    have h :=
      (aria_setsize_posinset_consistency
          [ListItem.mk ulElem (some anchorA), ListItem.mk ulElem none]).2.mpr
        hcontra
    have hx := h (ulElem, 1, 2) (by decide)
    exact absurd hx (by decide)

/-- Claim C7: while a Dialog is visible, an Escape keydown with focus
inside the dialog sets its `visible` state to false, and a click on the
overlay outside the dialog sets its `visible` state to false; likewise a
Popup closes on Escape and on an outside click. -/
theorem dialog_popup_dismissal (d : DialogSt) (p : PopupSt) :
    (d.visible = true → (Dialog.handleEscape d true).visible = false) ∧
    (d.visible = true → (Dialog.handleOverlayClick d).visible = false) ∧
    (Popup.handleEscape p).expanded = false ∧
    (p.expanded = true → (Popup.handleOutsideClick p).expanded = false) := by
  refine ⟨?_, ?_, rfl, ?_⟩
  · intro h
    simp [Dialog.handleEscape, h]
  · intro h
    simp [Dialog.handleOverlayClick, h]
  · intro h
    simp [Popup.handleOutsideClick, h]

theorem dialog_popup_dismissal_witness :
    (Dialog.handleEscape { focusables := [anchorA], visible := true }
        true).visible = false ∧
    (Popup.handleOutsideClick { expanded := true }).expanded = false := by
  have h :=
    dialog_popup_dismissal { focusables := [anchorA], visible := true }
      { expanded := true }
  exact ⟨h.1 rfl, h.2.2.2 rfl⟩

theorem handleControllerKeydown_inst_isSome (m : MenuInst) (keyCode : Nat) :
    (MenuButton.handleControllerKeydown (MenuField.inst m) keyCode).isSome =
      true := by
  unfold MenuButton.handleControllerKeydown
  split
  · cases m.firstItem <;> simp
  · split
    · cases m.lastItem <;> simp
    · simp

/-- Claim C5: on an initialized MenuButton whose `this.menu` is a Menu
instance, a RETURN, SPACE or DOWN keydown prevents the default action,
shows the popup, and focuses the menu's first item when one exists; an UP
keydown prevents the default action, shows the popup, and focuses the
menu's last item when one exists; every other key performs no effects, so
popup state and focus are unchanged. -/
theorem menuButton_open_and_focus (m : MenuInst) (keyCode : Nat) :
    ((keyCode = keyCodes.RETURN ∨ keyCode = keyCodes.SPACE ∨
        keyCode = keyCodes.DOWN) →
      MenuButton.handleControllerKeydown (MenuField.inst m) keyCode =
        some ([Act.preventDefault, Act.showPopup] ++
          (match m.firstItem with
           | some f => [Act.focusElem f]
           | none => []))) ∧
    (keyCode = keyCodes.UP →
      MenuButton.handleControllerKeydown (MenuField.inst m) keyCode =
        some ([Act.preventDefault, Act.showPopup] ++
          (match m.lastItem with
           | some l => [Act.focusElem l]
           | none => []))) ∧
    (∀ f, m.firstItem = some f →
      (keyCode = keyCodes.RETURN ∨ keyCode = keyCodes.SPACE ∨
        keyCode = keyCodes.DOWN) →
      ∀ (r : MBRun) (acts : List Act),
        MenuButton.handleControllerKeydown (MenuField.inst m) keyCode =
          some acts →
        (applyActs r acts).popupShown = true ∧
          (applyActs r acts).focused = some f) ∧
    (∀ l, m.lastItem = some l → keyCode = keyCodes.UP →
      ∀ (r : MBRun) (acts : List Act),
        MenuButton.handleControllerKeydown (MenuField.inst m) keyCode =
          some acts →
        (applyActs r acts).popupShown = true ∧
          (applyActs r acts).focused = some l) ∧
    (keyCode ≠ keyCodes.RETURN → keyCode ≠ keyCodes.SPACE →
      keyCode ≠ keyCodes.DOWN → keyCode ≠ keyCodes.UP →
      MenuButton.handleControllerKeydown (MenuField.inst m) keyCode =
        some []) := by
  have hopen :
      (keyCode = keyCodes.RETURN ∨ keyCode = keyCodes.SPACE ∨
        keyCode = keyCodes.DOWN) →
      MenuButton.handleControllerKeydown (MenuField.inst m) keyCode =
        some ([Act.preventDefault, Act.showPopup] ++
          (match m.firstItem with
           | some f => [Act.focusElem f]
           | none => [])) := by
    intro h
    simp [MenuButton.handleControllerKeydown, h]
  have hup :
      keyCode = keyCodes.UP →
      MenuButton.handleControllerKeydown (MenuField.inst m) keyCode =
        some ([Act.preventDefault, Act.showPopup] ++
          (match m.lastItem with
           | some l => [Act.focusElem l]
           | none => [])) := by
    intro h
    subst h
    simp [MenuButton.handleControllerKeydown, keyCodes.UP, keyCodes.RETURN,
      keyCodes.SPACE, keyCodes.DOWN]
  refine ⟨hopen, hup, ?_, ?_, ?_⟩
  · intro f hf hk r acts hacts
    rw [hopen hk, hf] at hacts
    cases hacts
    simp [applyActs, applyAct]
  · intro l hl hk r acts hacts
    rw [hup hk, hl] at hacts
    cases hacts
    simp [applyActs, applyAct]
  · intro h1 h2 h3 h4
    simp [MenuButton.handleControllerKeydown, h1, h2, h3, h4]

theorem menuButton_open_and_focus_witness :
    MenuButton.handleControllerKeydown
        (MenuField.inst { firstItem := some anchorA, lastItem := some anchorB })
        keyCodes.RETURN =
      some [Act.preventDefault, Act.showPopup, Act.focusElem anchorA] := by
  have h :=
    (menuButton_open_and_focus
        { firstItem := some anchorA, lastItem := some anchorB }
        keyCodes.RETURN).1 (Or.inl rfl)
  simpa using h

/-- Claim C9: for a MenuButton constructed with non-null controller and
target, when the `menu` option is a UL element or the target is a UL
element, `init` assigns `this.menu` a Menu instance and every subsequent
RETURN, SPACE, DOWN or UP keydown on the controller reads the menu's
`firstItem` / `lastItem` without faulting; without the precondition
`this.menu` keeps the raw constructor option (null or a non-Menu value),
and when it is null such a keydown faults dereferencing it. -/
theorem menuButton_menu_precondition (menuOpt : Option Elem) (target : Elem)
    (mk : Elem → MenuInst) :
    (((∃ e, menuOpt = some e ∧ e.nodeName = "UL") ∨ target.nodeName = "UL") →
      ∃ mi, MenuButton.initMenu menuOpt target mk = MenuField.inst mi ∧
        ∀ keyCode ∈
            [keyCodes.RETURN, keyCodes.SPACE, keyCodes.DOWN, keyCodes.UP],
          (MenuButton.handleControllerKeydown (MenuField.inst mi)
              keyCode).isSome = true) ∧
    ((¬ ((∃ e, menuOpt = some e ∧ e.nodeName = "UL") ∨
        target.nodeName = "UL")) →
      MenuButton.initMenu menuOpt target mk = MenuField.raw menuOpt ∧
      (menuOpt = none →
        MenuButton.handleControllerKeydown (MenuField.raw none)
          keyCodes.RETURN = none)) := by
  constructor
  · intro h
    have hinst : ∃ mi, MenuButton.initMenu menuOpt target mk =
        MenuField.inst mi := by
      rcases h with ⟨e, he, hul⟩ | hul
      · subst he
        simp [MenuButton.initMenu, hul]
      · cases menuOpt with
        | none =>
          simp [MenuButton.initMenu, hul]
        | some m =>
          by_cases hm : m.nodeName = "UL"
          · exact ⟨mk m, by simp [MenuButton.initMenu, hm]⟩
          · exact ⟨mk target, by simp [MenuButton.initMenu, hm, hul]⟩
    obtain ⟨mi, hmi⟩ := hinst
    exact ⟨mi, hmi, fun keyCode _ =>
      handleControllerKeydown_inst_isSome mi keyCode⟩
  · intro h
    push_neg at h
    obtain ⟨hno, htarget⟩ := h
    constructor
    · cases menuOpt with
      | none => simp [MenuButton.initMenu, htarget]
      | some m =>
        have hm : m.nodeName ≠ "UL" := by
          intro hm
          exact (hno m rfl) hm
        simp [MenuButton.initMenu, hm, htarget]
    · intro _
      simp [MenuButton.handleControllerKeydown, keyCodes.RETURN]

theorem menuButton_menu_precondition_witness :
    ((∃ e, (some ulElem : Option Elem) = some e ∧ e.nodeName = "UL") ∨
        divElem.nodeName = "UL") ∧
    (MenuButton.handleControllerKeydown
        (MenuField.inst { firstItem := some anchorA, lastItem := some anchorB })
        keyCodes.RETURN).isSome = true := by
  have hpre : (∃ e, (some ulElem : Option Elem) = some e ∧
      e.nodeName = "UL") ∨ divElem.nodeName = "UL" :=
    Or.inl ⟨ulElem, rfl, rfl⟩
  have h :=
    (menuButton_menu_precondition (some ulElem) divElem
        (fun _ => { firstItem := some anchorA, lastItem := some anchorB })).1
      hpre
  obtain ⟨mi, hmi, hkeys⟩ := h
  have hmi2 : mi = { firstItem := some anchorA, lastItem := some anchorB } := by
    have := hmi
    simp [MenuButton.initMenu, ulElem] at this
    exact this.symm
  refine ⟨hpre, ?_⟩
  have hk := hkeys keyCodes.RETURN (by decide)
  rw [hmi2] at hk
  exact hk

theorem findIdx?_getElem_of_nodup (l : List Elem) (hnd : l.Nodup) (i : Nat)
    (hi : i < l.length) :
    l.findIdx? (fun e => e = l.get ⟨i, hi⟩) = some i := by
  simp only [List.get_eq_getElem]
  rw [List.findIdx?_eq_some_iff_getElem]
  refine ⟨hi, by simp, ?_⟩
  intro j hj
  simp only [decide_eq_true_eq, Bool.not_eq_true, decide_eq_false_iff_not]
  intro hEq
  have := (List.Nodup.getElem_inj_iff hnd).mp hEq
  omega

/-- Claim C6: while the dialog is visible, a Tab keydown on the last
focusable element inside the dialog moves focus to the first focusable
element (the close button), a Shift+Tab keydown on the first focusable
element moves focus to the last, and the Tab/Shift+Tab focus target always
stays among the dialog's focusable elements. -/
theorem dialog_focus_trap_wrap (d : DialogSt) (hv : d.visible = true)
    (hnd : d.focusables.Nodup) (hne : d.focusables ≠ []) :
    Dialog.tabTarget d (d.focusables.getLast hne) false =
      some (d.focusables.head hne) ∧
    Dialog.tabTarget d (d.focusables.head hne) true =
      some (d.focusables.getLast hne) ∧
    ∀ cur shiftKey t, Dialog.tabTarget d cur shiftKey = some t →
      t ∈ d.focusables := by
  have hlen : 0 < d.focusables.length := List.length_pos.mpr hne
  have hlast : d.focusables.getLast hne =
      d.focusables.get ⟨d.focusables.length - 1, by omega⟩ :=
    List.getLast_eq_getElem d.focusables hne
  have hhead : d.focusables.head hne = d.focusables.get ⟨0, hlen⟩ :=
    List.head_eq_getElem d.focusables hne
  refine ⟨?_, ?_, ?_⟩
  · rw [hlast]
    unfold Dialog.tabTarget
    rw [hv]
    rw [findIdx?_getElem_of_nodup d.focusables hnd (d.focusables.length - 1)
      (by omega)]
    simp only [Bool.true_eq_false, if_false]
    have hmod : (d.focusables.length - 1 + 1) % d.focusables.length = 0 := by
      have : d.focusables.length - 1 + 1 = d.focusables.length := by omega
      rw [this, Nat.mod_self]
    rw [hmod, hhead]
    simp [List.get?_eq_getElem?, List.getElem?_eq_getElem hlen]
  · rw [hhead]
    unfold Dialog.tabTarget
    rw [hv]
    rw [findIdx?_getElem_of_nodup d.focusables hnd 0 hlen]
    simp only [Bool.true_eq_false, if_false]
    have hmod : (0 + d.focusables.length - 1) % d.focusables.length =
        d.focusables.length - 1 := by
      have h1 : 0 + d.focusables.length - 1 = d.focusables.length - 1 := by
        omega
      rw [h1]
      exact Nat.mod_eq_of_lt (by omega)
    rw [hmod, hlast]
    simp [List.get?_eq_getElem?,
      List.getElem?_eq_getElem (show d.focusables.length - 1 <
        d.focusables.length by omega)]
  · intro cur shiftKey t ht
    unfold Dialog.tabTarget at ht
    rw [hv] at ht
    simp only [Bool.true_eq_false, if_false] at ht
    cases hfind : d.focusables.findIdx? (fun e => e = cur) with
    | none => rw [hfind] at ht; exact absurd ht (by simp)
    | some i =>
      rw [hfind] at ht
      simp only at ht
      cases shiftKey with
      | true =>
        rw [if_pos rfl] at ht
        exact List.get?_mem ht
      | false =>
        rw [if_neg (by simp)] at ht
        exact List.get?_mem ht

theorem dialog_focus_trap_wrap_witness :
    Dialog.tabTarget
        { focusables := [anchorA, anchorB, anchorC], visible := true }
        anchorC false = some anchorA := by
  have h :=
    (dialog_focus_trap_wrap
        { focusables := [anchorA, anchorB, anchorC], visible := true }
        rfl (by decide) (by decide)).1
  simpa using h

/-- Claim C2: on a MenuItem list with at least one collected anchor item
whose active descendant is the `i`-th collected item, a DOWN keydown
suppresses the event's default action and propagation and focuses the item
after the active one, wrapping from the last item to the first, and an UP
keydown suppresses the event's default action and propagation and focuses
the item before the active one, wrapping from the first item to the last. -/
theorem menuItem_vertical_wrap (m : MenuItemM) (env : MenuItemEnv) (i : Nat)
    (hn : 0 < m.menuItems.length)
    (hact : env.containsActive = true)
    (hfind : m.menuItems.findIdx? (fun e => e = env.activeElement) = some i) :
    MenuItem.handleListKeydown m env keyCodes.DOWN =
      some [Act.stopPropagation, Act.preventDefault,
        Act.focusElem
          (m.menuItems.get ⟨(i + 1) % m.menuItems.length,
            Nat.mod_lt _ hn⟩)] ∧
    MenuItem.handleListKeydown m env keyCodes.UP =
      some [Act.stopPropagation, Act.preventDefault,
        Act.focusElem
          (m.menuItems.get ⟨(i + m.menuItems.length - 1) % m.menuItems.length,
            Nat.mod_lt _ hn⟩)] := by
  have hi : i < m.menuItems.length := by
    rcases List.findIdx?_eq_some_iff_getElem.mp hfind with ⟨h, _⟩
    exact h
  constructor
  · simp only [MenuItem.handleListKeydown, hact, if_true, jsIndexOf, hfind,
      keyCodes.UP, keyCodes.DOWN]
    norm_num
    rcases Nat.lt_or_ge (i + 1) m.menuItems.length with hc | hc
    · rw [if_neg (by omega)]
      have htn : (((i : Int) + 1)).toNat = i + 1 := by omega
      rw [htn]
      have hmod : (i + 1) % m.menuItems.length = i + 1 :=
        Nat.mod_eq_of_lt hc
      simp [List.get?_eq_getElem?, List.getElem?_eq_getElem hc, hmod]
    · have hceq : i + 1 = m.menuItems.length := by omega
      rw [if_pos (by omega)]
      have hmod : (i + 1) % m.menuItems.length = 0 := by
        rw [hceq, Nat.mod_self]
      simp [List.get?_eq_getElem?, List.getElem?_eq_getElem hn, hmod]
  · simp only [MenuItem.handleListKeydown, hact, if_true, jsIndexOf, hfind,
      keyCodes.UP, keyCodes.DOWN]
    norm_num
    rcases Nat.eq_zero_or_pos i with hc | hc
    · subst hc
      rw [if_pos (by omega)]
      have htn : ((m.menuItems.length : Int) - 1).toNat =
          m.menuItems.length - 1 := by omega
      rw [htn]
      have hmod : (0 + m.menuItems.length - 1) % m.menuItems.length =
          m.menuItems.length - 1 := by
        have h1 : 0 + m.menuItems.length - 1 = m.menuItems.length - 1 := by
          omega
        rw [h1]
        exact Nat.mod_eq_of_lt (by omega)
      simp [List.get?_eq_getElem?,
        List.getElem?_eq_getElem
          (show m.menuItems.length - 1 < m.menuItems.length by omega), hmod]
    · rw [if_neg (by omega)]
      have htn : (((i : Int) - 1)).toNat = i - 1 := by omega
      rw [htn]
      have hmod : (i + m.menuItems.length - 1) % m.menuItems.length = i - 1 := by
        have h1 : i + m.menuItems.length - 1 = (i - 1) + m.menuItems.length := by
          omega
        rw [h1, Nat.add_mod_right]
        exact Nat.mod_eq_of_lt (by omega)
      simp [List.get?_eq_getElem?,
        List.getElem?_eq_getElem (show i - 1 < m.menuItems.length by omega),
        hmod]

theorem menuItem_vertical_wrap_witness :
    MenuItem.handleListKeydown
        { menuItems := [anchorA, anchorB], previousSibling := none }
        { containsActive := true
          activeElement := anchorB
          nextUl := fun _ => none
          subMenuFirst := fun _ => none
          popupAttached := fun _ => none }
        keyCodes.DOWN =
      some [Act.stopPropagation, Act.preventDefault, Act.focusElem anchorA] := by
  have h :=
    (menuItem_vertical_wrap
        { menuItems := [anchorA, anchorB], previousSibling := none }
        { containsActive := true
          activeElement := anchorB
          nextUl := fun _ => none
          subMenuFirst := fun _ => none
          popupAttached := fun _ => none }
        1 (by decide) rfl (by decide)).1
  simpa using h

/-- Claim C3: on a keydown at the current menubar item, LEFT and RIGHT
resolve to the previous and next menubar item respectively and, when such
an item exists, the handler stops the event, first closes the current
item's popup when there is one, and then selects the resolved item as
`menubarItem` (which also receives focus); HOME selects the first menubar
item and END selects the last menubar item. -/
theorem menuBar_horizontal_resolution (kd : MenuBarKD) (first : Elem)
    (rest : List Elem) (hitems : kd.menuBarItems = first :: rest)
    (hlast : kd.lastIndex = kd.menuBarItems.length - 1) :
    (∀ keyCode, (keyCode = keyCodes.LEFT ∨ keyCode = keyCodes.RIGHT) →
      (∀ nx,
        nextPreviousFromLeftRight keyCode kd.menubarItem kd.menuBarItems =
            some nx →
          (MenuBar.handleMenuBarKeydown kd keyCode).1 =
            [Act.stopPropagation, Act.preventDefault] ++
              (match kd.popup with
               | some p => [Act.popupSetExpanded p.pid false]
               | none => []) ++
              [Act.setMenubarItem nx] ∧
          ∀ r : MBRun,
            (applyActs r
                (MenuBar.handleMenuBarKeydown kd keyCode).1).menubarItem = nx ∧
            (applyActs r
                (MenuBar.handleMenuBarKeydown kd keyCode).1).focused =
              some nx ∧
            ∀ p, kd.popup = some p →
              (applyActs r
                  (MenuBar.handleMenuBarKeydown kd keyCode).1).popupExp p.pid =
                false) ∧
      (nextPreviousFromLeftRight keyCode kd.menubarItem kd.menuBarItems =
          none →
        (MenuBar.handleMenuBarKeydown kd keyCode).1 = [])) ∧
    (MenuBar.handleMenuBarKeydown kd keyCodes.HOME).1 =
      [Act.preventDefault, Act.setMenubarItem first] ∧
    (MenuBar.handleMenuBarKeydown kd keyCodes.END).1 =
      [Act.preventDefault,
        Act.setMenubarItem
          ((first :: rest).getLast (List.cons_ne_nil first rest))] := by
  refine ⟨?_, ?_, ?_⟩
  · intro keyCode hk
    constructor
    · intro nx hnx
      have hacts : (MenuBar.handleMenuBarKeydown kd keyCode).1 =
          [Act.stopPropagation, Act.preventDefault] ++
            (match kd.popup with
             | some p => [Act.popupSetExpanded p.pid false]
             | none => []) ++
            [Act.setMenubarItem nx] := by
        unfold MenuBar.handleMenuBarKeydown
        rw [if_pos hk, hnx]
      refine ⟨hacts, ?_⟩
      intro r
      rw [hacts]
      cases hp : kd.popup with
      | none =>
        simp [applyActs, applyAct]
      | some p =>
        refine ⟨by simp [applyActs, applyAct], by simp [applyActs, applyAct],
          ?_⟩
        intro q hq
        injection hq with hq2
        subst hq2
        simp [applyActs, applyAct]
    · intro hnone
      unfold MenuBar.handleMenuBarKeydown
      rw [if_pos hk, hnone]
  · simp only [MenuBar.handleMenuBarKeydown, keyCodes.HOME, keyCodes.LEFT,
      keyCodes.RIGHT, keyCodes.SPACE, keyCodes.RETURN, keyCodes.DOWN,
      keyCodes.END]
    norm_num
    rw [hitems]
    simp
  · have hget : kd.menuBarItems[kd.lastIndex]? =
        some ((first :: rest).getLast (List.cons_ne_nil first rest)) := by
      rw [hitems] at hlast ⊢
      rw [hlast]
      have hlen : (first :: rest).length - 1 = rest.length := by simp
      have hlt : rest.length < (first :: rest).length := by simp
      rw [hlen, List.getElem?_eq_getElem hlt]
      rw [List.getLast_eq_getElem (first :: rest) (List.cons_ne_nil first rest)]
      simp
    simp only [MenuBar.handleMenuBarKeydown, keyCodes.HOME, keyCodes.LEFT,
      keyCodes.RIGHT, keyCodes.SPACE, keyCodes.RETURN, keyCodes.DOWN,
      keyCodes.END]
    norm_num
    rw [hget]

theorem menuBar_horizontal_resolution_witness :
    (MenuBar.handleMenuBarKeydown
        { menuBarItems := [anchorA, anchorB]
          lastIndex := 1
          menubarItem := anchorA
          popup := some { pid := 7, expanded := true, firstChild := anchorC }
          searchString := "" }
        keyCodes.RIGHT).1 =
      [Act.stopPropagation, Act.preventDefault, Act.popupSetExpanded 7 false,
        Act.setMenubarItem anchorB] := by
  have h :=
    ((menuBar_horizontal_resolution
        { menuBarItems := [anchorA, anchorB]
          lastIndex := 1
          menubarItem := anchorA
          popup := some { pid := 7, expanded := true, firstChild := anchorC }
          searchString := "" }
        anchorA [anchorB] rfl (by decide)).1
      keyCodes.RIGHT (Or.inr rfl)).1 anchorB (by decide)
  simpa using h.1

/-- Claim C4: on a RIGHT keydown, when the active item's next element
sibling is a UL managed by a MenuItem instance, the event is stopped and
focus moves to the first item of that sublist; on a LEFT keydown, when the
list has a recorded `previousSibling`, the event is stopped and focus
moves to that previous sibling, and when that sibling carries a Popup
whose state is expanded, the popup's expanded state is first set to
false. -/
theorem menuItem_nested_popup_coordination (m : MenuItemM)
    (env : MenuItemEnv) (hact : env.containsActive = true) :
    (∀ ul f, env.nextUl env.activeElement = some ul →
      env.subMenuFirst ul = some (some f) →
      MenuItem.handleListKeydown m env keyCodes.RIGHT =
        some [Act.stopPropagation, Act.preventDefault, Act.focusElem f]) ∧
    (∀ prev, m.previousSibling = some prev →
      (env.popupAttached prev = none →
        MenuItem.handleListKeydown m env keyCodes.LEFT =
          some [Act.stopPropagation, Act.preventDefault,
            Act.focusElem prev]) ∧
      (∀ p, env.popupAttached prev = some p → p.expanded = true →
        MenuItem.handleListKeydown m env keyCodes.LEFT =
          some [Act.stopPropagation, Act.preventDefault,
            Act.stopPropagation, Act.preventDefault,
            Act.popupSetExpanded p.pid false, Act.focusElem prev])) := by
  constructor
  · intro ul f hul hfirst
    simp only [MenuItem.handleListKeydown, hact, keyCodes.UP, keyCodes.DOWN,
      keyCodes.RIGHT, keyCodes.LEFT]
    norm_num
    simp [hul, hfirst]
  · intro prev hprev
    constructor
    · intro hnone
      simp only [MenuItem.handleListKeydown, hact, keyCodes.UP, keyCodes.DOWN,
        keyCodes.RIGHT, keyCodes.LEFT]
      norm_num
      simp [hprev, hnone]
    · intro p hp hexp
      simp only [MenuItem.handleListKeydown, hact, keyCodes.UP, keyCodes.DOWN,
        keyCodes.RIGHT, keyCodes.LEFT]
      norm_num
      simp [hprev, hp, hexp]

theorem menuItem_nested_popup_coordination_witness :
    MenuItem.handleListKeydown
        { menuItems := [anchorA], previousSibling := some anchorB }
        { containsActive := true
          activeElement := anchorA
          nextUl := fun _ => none
          subMenuFirst := fun _ => none
          popupAttached := fun e =>
            if e = anchorB then
              some { pid := 4, expanded := true, firstChild := anchorC }
            else none }
        keyCodes.LEFT =
      some [Act.stopPropagation, Act.preventDefault, Act.stopPropagation,
        Act.preventDefault, Act.popupSetExpanded 4 false,
        Act.focusElem anchorB] := by
  have h :=
    ((menuItem_nested_popup_coordination
        { menuItems := [anchorA], previousSibling := some anchorB }
        { containsActive := true
          activeElement := anchorA
          nextUl := fun _ => none
          subMenuFirst := fun _ => none
          popupAttached := fun e =>
            if e = anchorB then
              some { pid := 4, expanded := true, firstChild := anchorC }
            else none }
        rfl).2 anchorB rfl).2
      { pid := 4, expanded := true, firstChild := anchorC } (by decide) rfl
  exact h

/-- Claim C8: a keydown on a menubar item whose key code is none of LEFT,
RIGHT, DOWN, HOME, END, SPACE, RETURN appends the pressed character to the
collected search string; when some menubar item matches the new search
string, that item becomes the selected `menubarItem`; when no item
matches, the selection is unchanged. -/
theorem menuBar_typeahead_search (kd : MenuBarKD) (keyCode : Nat)
    (h1 : keyCode ≠ keyCodes.LEFT) (h2 : keyCode ≠ keyCodes.RIGHT)
    (h3 : keyCode ≠ keyCodes.DOWN) (h4 : keyCode ≠ keyCodes.HOME)
    (h5 : keyCode ≠ keyCodes.END) (h6 : keyCode ≠ keyCodes.SPACE)
    (h7 : keyCode ≠ keyCodes.RETURN) :
    (MenuBar.handleMenuBarKeydown kd keyCode).2 =
      kd.searchString.push (keyChar keyCode) ∧
    (∀ x,
      kd.menuBarItems.find?
          (fun e => textBeginsWith e.textContent
            (kd.searchString.push (keyChar keyCode))) = some x →
      (MenuBar.handleMenuBarKeydown kd keyCode).1 = [Act.setMenubarItem x] ∧
      ∀ r : MBRun,
        (applyActs r
            (MenuBar.handleMenuBarKeydown kd keyCode).1).menubarItem = x) ∧
    (kd.menuBarItems.find?
          (fun e => textBeginsWith e.textContent
            (kd.searchString.push (keyChar keyCode))) = none →
      (MenuBar.handleMenuBarKeydown kd keyCode).1 = [] ∧
      ∀ r : MBRun,
        applyActs r (MenuBar.handleMenuBarKeydown kd keyCode).1 = r) := by
  have hdef : MenuBar.handleMenuBarKeydown kd keyCode =
      (match typeAhead keyCode kd.searchString kd.menuBarItems with
       | (some itemToFocus, s) => ([Act.setMenubarItem itemToFocus], s)
       | (none, s) => ([], s)) := by
    unfold MenuBar.handleMenuBarKeydown
    rw [if_neg (by simp [h1, h2]), if_neg (by simp [h3, h6, h7]),
      if_neg h4, if_neg h5]
  refine ⟨?_, ?_, ?_⟩
  · rw [hdef]
    simp only [typeAhead]
    cases hfind : kd.menuBarItems.find?
        (fun e => textBeginsWith e.textContent
          (kd.searchString.push (keyChar keyCode))) with
    | none => simp [hfind]
    | some x => simp [hfind]
  · intro x hfind
    rw [hdef]
    simp only [typeAhead]
    rw [hfind]
    exact ⟨rfl, fun r => by simp [applyActs, applyAct]⟩
  · intro hfind
    rw [hdef]
    simp only [typeAhead]
    rw [hfind]
    exact ⟨rfl, fun r => rfl⟩

theorem menuBar_typeahead_search_witness :
    (MenuBar.handleMenuBarKeydown
        { menuBarItems := [anchorA, anchorB]
          lastIndex := 1
          menubarItem := anchorA
          popup := none
          searchString := "" } 66).1 = [Act.setMenubarItem anchorB] := by
  have h :=
    ((menuBar_typeahead_search
        { menuBarItems := [anchorA, anchorB]
          lastIndex := 1
          menubarItem := anchorA
          popup := none
          searchString := "" } 66
        (by decide) (by decide) (by decide) (by decide) (by decide)
        (by decide) (by decide)).2.1 anchorB (by decide)).1
  exact h

end AriaComponents
